import Mathlib

/-!
Verification of the event-to-trajectory conversion core of the
`minpeter/plugsuits` repository.

The repository holds two Python variants of the same agent wrapper:
  * `src/packages/cea/benchmark/harbor_agent.py` ("cea", flat
    tool_call/tool_result event variant), and
  * `src/harbor_agent.py` ("root", content-block assistant variant).
Both define `_convert_events_to_trajectory` and
`populate_context_post_run` on class `CodeEditingAgent`.

The shallow embedding below models decoded JSON values, Python
truthiness, Python `==`, Python `str()` rendering, and the two
converters as explicit state-passing functions.  Fallible field
accesses (`.get` on a non-dict value, which raises `AttributeError`
in Python and is caught at the `populate_context_post_run` boundary)
are modelled in the `Except Unit` monad.

Modelling notes stated once here:
  * JSON parsing itself (`json.loads`) is not re-implemented; a log
    line is pre-classified as blank, malformed, or a decoded value
    (`LogLine`).  Decoded objects are assumed to have unique keys,
    which `json.loads` guarantees (last duplicate wins at parse time).
  * Python string `repr` escaping inside `str()` of containers is
    simplified (no escape sequences); no claim depends on the exact
    rendering, and both the claim side and the code side use the same
    rendering function.
  * pydantic field coercion is modelled strictly for `int` fields
    (an integer JSON value or null; anything else is a conversion
    error), and string-typed fields that the code feeds raw JSON
    values are modelled as holding the raw JSON value.
-/

/-- A decoded JSON value, as produced by `json.loads` on one log line. -/
inductive Json where
  | null : Json
  | bool : Bool → Json
  | num : Int → Json
  | str : String → Json
  | arr : List Json → Json
  | obj : List (String × Json) → Json

/-- Python truthiness of a decoded JSON value (`if x:`). -/
def Json.truthy : Json → Bool
  | .null => false
  | .bool b => b
  | .num n => n != 0
  | .str s => s != ""
  | .arr xs => !xs.isEmpty
  | .obj kvs => !kvs.isEmpty

mutual
/-- Python `==` on decoded JSON values: structural, with the numeric
tower identifying `True` with `1` and `False` with `0`. -/
def pyEq : Json → Json → Bool
  | .null, .null => true
  | .bool a, .bool b => a == b
  | .bool a, .num n => (if a then (1 : Int) else 0) == n
  | .num n, .bool a => n == (if a then (1 : Int) else 0)
  | .num a, .num b => a == b
  | .str a, .str b => a == b
  | .arr a, .arr b => pyEqList a b
  | .obj a, .obj b => pyEqPairs a b
  | _, _ => false

/-- Elementwise Python `==` on lists. -/
def pyEqList : List Json → List Json → Bool
  | [], [] => true
  | a :: as', b :: bs' => pyEq a b && pyEqList as' bs'
  | _, _ => false

/-- Python `==` on dict entry lists (entry order as decoded). -/
def pyEqPairs : List (String × Json) → List (String × Json) → Bool
  | [], [] => true
  | (ka, va) :: as', (kb, vb) :: bs' => ka == kb && pyEq va vb && pyEqPairs as' bs'
  | _, _ => false
end

/-- The single-quote character used by Python `repr` of strings. -/
def pySQuote : String := String.singleton (Char.ofNat 39)

mutual
/-- Python `str()` of a decoded JSON value: a string renders as
itself, every other value renders as its `repr`. -/
def pyStr : Json → String
  | .str s => s
  | .null => "None"
  | .bool true => "True"
  | .bool false => "False"
  | .num n => toString n
  | .arr xs => "[" ++ ", ".intercalate (pyReprList xs) ++ "]"
  | .obj kvs => "\x7b" ++ ", ".intercalate (pyReprPairs kvs) ++ "\x7d"

/-- Python `repr()` of a decoded JSON value (escaping simplified). -/
def pyRepr : Json → String
  | .null => "None"
  | .bool true => "True"
  | .bool false => "False"
  | .num n => toString n
  | .str s => pySQuote ++ s ++ pySQuote
  | .arr xs => "[" ++ ", ".intercalate (pyReprList xs) ++ "]"
  | .obj kvs => "\x7b" ++ ", ".intercalate (pyReprPairs kvs) ++ "\x7d"

/-- `repr` of each element of a list. -/
def pyReprList : List Json → List String
  | [] => []
  | x :: xs => pyRepr x :: pyReprList xs

/-- `'key': repr(value)` rendering of each dict entry. -/
def pyReprPairs : List (String × Json) → List String
  | [] => []
  | (k, v) :: kvs => (pySQuote ++ k ++ pySQuote ++ ": " ++ pyRepr v) :: pyReprPairs kvs
end

/-- `event.get(key, default)` on a decoded JSON object. -/
def dGetD (kvs : List (String × Json)) (k : String) (d : Json) : Json :=
  (List.lookup k kvs).getD d

/-- `event.get(key)` (default `None`) on a decoded JSON object. -/
def dGet (kvs : List (String × Json)) (k : String) : Json :=
  dGetD kvs k .null

/-- `.get` on an arbitrary value: succeeds only on a dict, otherwise
the Python code raises `AttributeError`. -/
def asDict : Json → Except Unit (List (String × Json))
  | .obj kvs => .ok kvs
  | _ => .error ()

/-- Python `a or b` on decoded JSON values. -/
def pyOrJson (a b : Json) : Json := if a.truthy then a else b

/-- Python `a or b` on strings. -/
def pyOrStr (a b : String) : String := if a == "" then b else a

/-- Python `a or b` where `a` is an optional int (pydantic field). -/
def pyOrInt (a : Option Int) (b : Int) : Int :=
  match a with
  | none => b
  | some v => if v = 0 then b else v

/-- `x or None` on an int total. -/
def pyOrNone (n : Int) : Option Int := if n = 0 then none else some n

/-! ## Trajectory schema (harbor.models.trajectories)

The code constructs these pydantic models; only the fields the two
converters touch are modelled.  Fields the code feeds raw JSON values
are typed `Json`; optional fields the code sometimes leaves at their
defaults are `Option`s defaulting to `none` / `Json.null`. -/

/-- `ToolCall(tool_call_id=..., function_name=..., arguments=...)`. -/
structure ToolCall where
  tool_call_id : Json
  function_name : Json
  arguments : Json

/-- `ObservationResult(source_call_id=..., content=...)`. -/
structure ObservationResult where
  source_call_id : Json
  content : Json

/-- `Observation(results=[...])`. -/
structure Observation where
  results : List ObservationResult

/-- Per-step token usage (`Metrics`). -/
structure Metrics where
  prompt_tokens : Option Int
  completion_tokens : Option Int
  cached_tokens : Option Int

/-- One trajectory entry (`Step`). -/
structure Step where
  step_id : Nat
  timestamp : Json := .null
  source : String
  message : Json
  model_name : Json := .null
  reasoning_content : Json := .null
  tool_calls : Option (List ToolCall) := none
  observation : Option Observation := none
  metrics : Option Metrics := none

/-- Run-level token totals (`FinalMetrics`). -/
structure FinalMetrics where
  total_prompt_tokens : Option Int
  total_completion_tokens : Option Int
  total_cached_tokens : Option Int
  total_steps : Nat

/-- Agent identity (`Agent`). -/
structure Agent where
  name : String
  version : String
  model_name : String

/-- The root document (`Trajectory`). -/
structure Trajectory where
  schema_version : String
  session_id : Json
  agent : Agent
  steps : List Step
  final_metrics : FinalMetrics

/-! ## Metrics aggregation (identical in both variants)

Lines 148-162 of the cea file and 139-153 of the root file: the three
generator-expression sums filter on the Python truthiness of
`s.metrics` and of the per-field value before summing, and each
run-level field is `total or None` (lines 174-176 / 165-167). -/

/-- `sum(f(s.metrics) for s in steps if s.metrics and f(s.metrics))`:
the contribution of one step under Python truthiness filtering. -/
def stepFieldContrib (f : Metrics → Option Int) (s : Step) : Option Int :=
  match s.metrics with
  | some m =>
    match f m with
    | some v => if v = 0 then none else some v
    | none => none
  | none => none

/-- One of the three truthiness-filtered sums over all steps. -/
def metricsTotal (f : Metrics → Option Int) (steps : List Step) : Int :=
  (steps.filterMap (stepFieldContrib f)).sum

/-- The `FinalMetrics(...)` constructor call shared by both variants. -/
def mkFinalMetrics (steps : List Step) : FinalMetrics :=
  { total_prompt_tokens := pyOrNone (metricsTotal (fun m => m.prompt_tokens) steps)
    total_completion_tokens := pyOrNone (metricsTotal (fun m => m.completion_tokens) steps)
    total_cached_tokens := pyOrNone (metricsTotal (fun m => m.cached_tokens) steps)
    total_steps := steps.length }

/-! ## Flat-variant converter (src/packages/cea/benchmark/harbor_agent.py) -/

/-- Running state of the conversion loop: the step counter and the
steps built so far (in build order). -/
structure ConvState where
  step_id : Nat
  steps : List Step

/-- The guard-and-match test of the correlator loop (lines 116-121):
`step.source == "agent" and step.tool_calls` and some ToolCall's id
equals the result's id under Python `==`. -/
def ceaMatchesStep (tcid : Json) (s : Step) : Bool :=
  s.source == "agent" &&
    (match s.tool_calls with
     | some tcs => !tcs.isEmpty && tcs.any (fun tc => pyEq tc.tool_call_id tcid)
     | none => false)

/-- The in-place observation update of the matched step (lines
122-129): append an `ObservationResult` to the existing observation,
or create a new observation holding exactly that one result. -/
def stepAddResult (tcid content : Json) (s : Step) : Step :=
  let r : ObservationResult := { source_call_id := tcid, content := content }
  match s.observation with
  | some o => { s with observation := some { results := o.results ++ [r] } }
  | none => { s with observation := some { results := [r] } }

/-- `for step in reversed(steps): ... break` (lines 115-130), phrased
on the already-reversed list: update the first matching step and stop,
leave every other step unchanged. -/
def ceaAttachRev (tcid content : Json) : List Step → List Step
  | [] => []
  | s :: rest =>
    if ceaMatchesStep tcid s then stepAddResult tcid content s :: rest
    else s :: ceaAttachRev tcid content rest

/-- The correlator on the steps list in build order. -/
def ceaAttachToolResult (tcid content : Json) (steps : List Step) : List Step :=
  (ceaAttachRev tcid content steps.reverse).reverse

/-- Lines 107-112: the content handed to the correlator —
`output = event.get("output", "")`, and if `error` is truthy the
f-string `f"{output}\nSTDERR: {error}"` when `output` is truthy, else
`f"STDERR: {error}"`. -/
def ceaResultContent (e : List (String × Json)) : Json :=
  let output := dGetD e "output" (.str "")
  let error := dGet e "error"
  if error.truthy then
    .str (if output.truthy then pyStr output ++ "\nSTDERR: " ++ pyStr error
          else "STDERR: " ++ pyStr error)
  else output

/-- The whole `tool_result` branch (lines 105-130): the correlator
runs only under the guard `if tool_call_id and steps:`. -/
def ceaHandleToolResult (e : List (String × Json)) (steps : List Step) : List Step :=
  let tcid := dGet e "tool_call_id"
  if tcid.truthy && !steps.isEmpty then
    ceaAttachToolResult tcid (ceaResultContent e) steps
  else steps

/-- One iteration of the event loop (lines 69-143).  A non-dict event
raises `AttributeError` at `event.get("type")`, modelled as `.error`. -/
def ceaProcessEvent (cfgModel : String) (st : ConvState) (ej : Json) :
    Except Unit ConvState := do
  let e ← asDict ej
  let etype := dGet e "type"
  let timestamp := dGet e "timestamp"
  if pyEq etype (.str "user") then
    pure { step_id := st.step_id + 1,
           steps := st.steps ++ [{ step_id := st.step_id + 1,
                                   timestamp := timestamp,
                                   source := "user",
                                   message := dGetD e "content" (.str "") }] }
  else if pyEq etype (.str "tool_call") then
    pure { step_id := st.step_id + 1,
           steps := st.steps ++ [{ step_id := st.step_id + 1,
                                   timestamp := timestamp,
                                   source := "agent",
                                   message := .str "Tool execution",
                                   model_name := pyOrJson (dGet e "model") (.str cfgModel),
                                   reasoning_content := dGet e "reasoning_content",
                                   tool_calls := some
                                     [{ tool_call_id := dGetD e "tool_call_id" (.str ""),
                                        function_name := dGetD e "tool_name" (.str ""),
                                        arguments := dGetD e "tool_input" (.obj []) }],
                                   observation := none }] }
  else if pyEq etype (.str "tool_result") then
    pure { st with steps := ceaHandleToolResult e st.steps }
  else if pyEq etype (.str "assistant") then
    pure { step_id := st.step_id + 1,
           steps := st.steps ++ [{ step_id := st.step_id + 1,
                                   timestamp := timestamp,
                                   source := "agent",
                                   message := dGetD e "content" (.str ""),
                                   model_name := pyOrJson (dGet e "model") (.str cfgModel),
                                   reasoning_content := dGet e "reasoning_content" }] }
  else
    pure st

/-- The event loop as explicit recursion over the event list. -/
def ceaFoldEvents (cfgModel : String) (st : ConvState) : List Json → Except Unit ConvState
  | [] => .ok st
  | e :: rest => do
    let st' ← ceaProcessEvent cfgModel st e
    ceaFoldEvents cfgModel st' rest

/-- `_convert_events_to_trajectory` of the cea file (lines 50-179),
from the decoded event list onward. -/
def ceaConvert (cfgModel : String) (events : List Json) :
    Except Unit (Option Trajectory) :=
  match events with
  | [] => .ok none
  | e0 :: _ => do
    let d0 ← asDict e0
    let sessionId := dGetD d0 "sessionId" (.str "unknown")
    let st ← ceaFoldEvents cfgModel { step_id := 0, steps := [] } events
    if st.steps.isEmpty then
      pure none
    else
      pure (some
        { schema_version := "ATIF-v1.4"
          session_id := sessionId
          agent := { name := "code-editing-agent", version := "1.0.0",
                     model_name := cfgModel }
          steps := st.steps
          final_metrics := mkFinalMetrics st.steps })

/-! ## Content-block-variant converter (src/harbor_agent.py) -/

/-- `isinstance(block, dict) and block.get("type") == "tool_use"`
(line 90). -/
def isToolUseBlock (b : Json) : Bool :=
  match b with
  | .obj kvs => pyEq (dGet kvs "type") (.str "tool_use")
  | _ => false

/-- The `ToolCall` built from a `tool_use` block (lines 91-97). -/
def mkBlockToolCall (b : Json) : ToolCall :=
  match b with
  | .obj kvs => { tool_call_id := dGetD kvs "id" (.str "")
                  function_name := dGetD kvs "name" (.str "")
                  arguments := dGetD kvs "input" (.obj []) }
  | _ => { tool_call_id := .str "", function_name := .str "",
           arguments := .obj [] }

/-- The `for block in content:` loop of the assistant branch (lines
88-99): accumulate extracted `ToolCall`s and the concatenation of
`str(block)` over the remaining blocks. -/
def rootBlocksAcc (blocks : List Json) : List ToolCall × String :=
  blocks.foldl
    (fun acc block =>
      if isToolUseBlock block then (acc.1 ++ [mkBlockToolCall block], acc.2)
      else (acc.1, acc.2 ++ pyStr block))
    ([], "")

/-- pydantic coercion of `usage.get(...)` into an `int | None` field:
an integer stays, null/absent is `None`, anything else fails
validation (an exception at `Metrics(...)`). -/
def asIntField : Json → Except Unit (Option Int)
  | .null => .ok none
  | .num n => .ok (some n)
  | _ => .error ()

/-- Lines 103-109: `usage = message.get("usage", {})`; when `usage`
is truthy, a `Metrics` record from its three token fields (a truthy
non-dict `usage`, or a non-integer field value, raises). -/
def rootMetricsOf (m : List (String × Json)) : Except Unit (Option Metrics) :=
  let usage := dGetD m "usage" (.obj [])
  if usage.truthy then do
    let u ← asDict usage
    let p ← asIntField (dGet u "input_tokens")
    let c ← asIntField (dGet u "output_tokens")
    let cr ← asIntField (dGet u "cache_read_input_tokens")
    pure (some { prompt_tokens := p, completion_tokens := c,
                 cached_tokens := cr : Metrics })
  else pure none

/-- Lines 111-121: `if tool_result and tool_calls:` attach one
observation with the first extracted ToolCall's id and the result's
`stdout` field (a truthy non-dict `toolUseResult` raises at `.get`). -/
def rootObservationOf (e : List (String × Json)) (tool_calls : List ToolCall) :
    Except Unit (Option Observation) :=
  match tool_calls with
  | tc0 :: _ =>
    if (dGet e "toolUseResult").truthy then do
      let td ← asDict (dGet e "toolUseResult")
      pure (some { results := [{ source_call_id := tc0.tool_call_id,
                                 content := dGetD td "stdout" (.str "") }]
                   : Observation })
    else pure (none : Option Observation)
  | [] => pure none

/-- Lines 85-101: `(tool_calls, text_content)` from the `content`
field — the block loop when `content` is a list, otherwise no tool
calls and `str(content)` as the text. -/
def rootContentAcc (content : Json) : List ToolCall × String :=
  match content with
  | .arr blocks => rootBlocksAcc blocks
  | _ => ([], pyStr content)

/-- One iteration of the root-file event loop (lines 59-134). -/
def rootProcessEvent (cfgModel : String) (st : ConvState) (ej : Json) :
    Except Unit ConvState := do
  let e ← asDict ej
  let etype := dGet e "type"
  let timestamp := dGet e "timestamp"
  let message := dGetD e "message" (.obj [])
  if pyEq etype (.str "user") then do
    let m ← asDict message
    let content := dGetD m "content" (.str "")
    pure { step_id := st.step_id + 1,
           steps := st.steps ++ [{ step_id := st.step_id + 1,
                                   timestamp := timestamp,
                                   source := "user",
                                   message := .str (pyStr content) }] }
  else if pyEq etype (.str "assistant") then do
    let m ← asDict message
    let tc := rootContentAcc (dGetD m "content" (.str ""))
    let modelName := dGet m "model"
    let metrics ← rootMetricsOf m
    let observation ← rootObservationOf e tc.1
    pure { step_id := st.step_id + 1,
           steps := st.steps ++ [{ step_id := st.step_id + 1,
                                   timestamp := timestamp,
                                   source := "agent",
                                   message := .str (pyOrStr tc.2 "Tool execution"),
                                   model_name := pyOrJson modelName (.str cfgModel),
                                   tool_calls := if tc.1.isEmpty then none
                                                 else some tc.1,
                                   observation := observation,
                                   metrics := metrics }] }
  else
    pure st

/-- The root-file event loop as explicit recursion. -/
def rootFoldEvents (cfgModel : String) (st : ConvState) : List Json → Except Unit ConvState
  | [] => .ok st
  | e :: rest => do
    let st' ← rootProcessEvent cfgModel st e
    rootFoldEvents cfgModel st' rest

/-- `_convert_events_to_trajectory` of the root file (lines 40-170),
from the decoded event list onward.  The root file has no `version()`
override (it is inherited from a base class outside this repository),
so the agent version is a parameter. -/
def rootConvert (cfgModel ver : String) (events : List Json) :
    Except Unit (Option Trajectory) :=
  match events with
  | [] => .ok none
  | e0 :: _ => do
    let d0 ← asDict e0
    let sessionId := dGetD d0 "sessionId" (.str "unknown")
    let st ← rootFoldEvents cfgModel { step_id := 0, steps := [] } events
    if st.steps.isEmpty then
      pure none
    else
      pure (some
        { schema_version := "ATIF-v1.4"
          session_id := sessionId
          agent := { name := "code-editing-agent", version := ver,
                     model_name := cfgModel }
          steps := st.steps
          final_metrics := mkFinalMetrics st.steps })

/-! ## Event decoder and post-run context population -/

/-- One raw log line, pre-classified: blank after `strip()`, a line
`json.loads` rejects, or a decoded JSON value. -/
inductive LogLine where
  | blank : LogLine
  | malformed : String → LogLine
  | valid : Json → LogLine

/-- Lines 52-60 of the cea file (42-50 of the root file): keep the
decoded value of each parseable line, skip blank and malformed lines
without aborting. -/
def decodeLines (ls : List LogLine) : List Json :=
  ls.filterMap fun l =>
    match l with
    | .valid j => some j
    | _ => none

/-- Conversion straight from classified log lines (cea variant). -/
def ceaConvertLog (cfgModel : String) (ls : List LogLine) :
    Except Unit (Option Trajectory) :=
  ceaConvert cfgModel (decodeLines ls)

/-- Conversion straight from classified log lines (root variant). -/
def rootConvertLog (cfgModel ver : String) (ls : List LogLine) :
    Except Unit (Option Trajectory) :=
  rootConvert cfgModel ver (decodeLines ls)

/-- The caller-supplied mutable context sink (`AgentContext`): the
three token-count fields `populate_context_post_run` may assign. -/
structure AgentContext where
  n_input_tokens : Int
  n_output_tokens : Int
  n_cache_tokens : Int
deriving DecidableEq

/-- The result of `_get_log_file`: either no log file exists, or a
log file with its classified lines. -/
inductive LogLookup where
  | missing : LogLookup
  | found : List LogLine → LogLookup

/-- `populate_context_post_run` of the cea file (lines 181-215),
restricted to its effect on the context sink (printing and the
trajectory-file write are I/O with no effect on the sink).  The
`if trajectory.final_metrics:` guard is truthy whenever a trajectory
exists, since the converter always constructs `FinalMetrics`. -/
def ceaPopulateContextPostRun (cfgModel : String) (log : LogLookup)
    (ctx : AgentContext) : AgentContext :=
  match log with
  | .missing => ctx
  | .found ls =>
    match ceaConvertLog cfgModel ls with
    | .error _ => ctx
    | .ok none => ctx
    | .ok (some t) =>
      { n_input_tokens := pyOrInt t.final_metrics.total_prompt_tokens 0
        n_output_tokens := pyOrInt t.final_metrics.total_completion_tokens 0
        n_cache_tokens := pyOrInt t.final_metrics.total_cached_tokens 0 }

/-- Events that open a new `Step` in the flat variant: the `user`,
`tool_call` and `assistant` branches each run `step_id += 1` and
append exactly one step; `tool_result` and unknown types do not. -/
def ceaIsStepCreating (ej : Json) : Bool :=
  match ej with
  | .obj e =>
    pyEq (dGet e "type") (.str "user") ||
    pyEq (dGet e "type") (.str "tool_call") ||
    pyEq (dGet e "type") (.str "assistant")
  | _ => false

/-- Events that open a new `Step` in the content-block variant:
only the `user` and `assistant` branches. -/
def rootIsStepCreating (ej : Json) : Bool :=
  match ej with
  | .obj e =>
    pyEq (dGet e "type") (.str "user") ||
    pyEq (dGet e "type") (.str "assistant")
  | _ => false

/-- `populate_context_post_run` of the root file (lines 172-201),
same shape. -/
def rootPopulateContextPostRun (cfgModel ver : String) (log : LogLookup)
    (ctx : AgentContext) : AgentContext :=
  match log with
  | .missing => ctx
  | .found ls =>
    match rootConvertLog cfgModel ver ls with
    | .error _ => ctx
    | .ok none => ctx
    | .ok (some t) =>
      { n_input_tokens := pyOrInt t.final_metrics.total_prompt_tokens 0
        n_output_tokens := pyOrInt t.final_metrics.total_completion_tokens 0
        n_cache_tokens := pyOrInt t.final_metrics.total_cached_tokens 0 }

/-! ## Helper lemmas -/

theorem pyEq_str_iff (a : Json) (s : String) : pyEq a (.str s) = true ↔ a = .str s := by
  cases a <;> simp [pyEq]

theorem stepAddResult_step_id (t c : Json) (s : Step) :
    (stepAddResult t c s).step_id = s.step_id := by
  cases h : s.observation <;> simp [stepAddResult, h]

theorem stepAddResult_metrics (t c : Json) (s : Step) :
    (stepAddResult t c s).metrics = s.metrics := by
  cases h : s.observation <;> simp [stepAddResult, h]

theorem ceaAttachRev_map_step_id (t c : Json) (l : List Step) :
    (ceaAttachRev t c l).map (fun s => s.step_id) = l.map (fun s => s.step_id) := by
  induction l with
  | nil => rfl
  | cons s rest ih =>
    by_cases h : ceaMatchesStep t s
    · simp [ceaAttachRev, h, stepAddResult_step_id]
    · simp [ceaAttachRev, h, ih]

theorem ceaAttachToolResult_map_step_id (t c : Json) (steps : List Step) :
    (ceaAttachToolResult t c steps).map (fun s => s.step_id) =
      steps.map (fun s => s.step_id) := by
  simp [ceaAttachToolResult, List.map_reverse, ceaAttachRev_map_step_id]

theorem ceaHandleToolResult_map_step_id (e : List (String × Json)) (steps : List Step) :
    (ceaHandleToolResult e steps).map (fun s => s.step_id) =
      steps.map (fun s => s.step_id) := by
  simp only [ceaHandleToolResult]
  split
  · exact ceaAttachToolResult_map_step_id _ _ _
  · rfl

theorem ceaProcessEvent_shape (cfg : String) (st : ConvState) (ej : Json)
    (st' : ConvState) (h : ceaProcessEvent cfg st ej = .ok st') :
    st'.step_id = st.step_id + (if ceaIsStepCreating ej then 1 else 0) ∧
    st'.steps.map (fun s => s.step_id) =
      st.steps.map (fun s => s.step_id) ++
        (if ceaIsStepCreating ej then [st.step_id + 1] else []) := by
  cases ej with
  | obj e =>
    simp only [ceaProcessEvent, bind, Except.bind, asDict] at h
    simp only [ceaIsStepCreating]
    split at h
    · next hu =>
      simp only [pure, Except.pure, Except.ok.injEq] at h
      subst h
      simp [hu]
    · next hu =>
      split at h
      · next htc =>
        simp only [pure, Except.pure, Except.ok.injEq] at h
        subst h
        simp [hu, htc]
      · next htc =>
        split at h
        · next htr =>
          have ht := (pyEq_str_iff _ _).mp htr
          have hassist : pyEq (dGet e "type") (.str "assistant") = false := by
            rw [ht]; simp [pyEq]
          simp only [pure, Except.pure, Except.ok.injEq] at h
          subst h
          simp [hu, htc, hassist, ceaHandleToolResult_map_step_id]
        · next htr =>
          split at h
          · next ha =>
            simp only [pure, Except.pure, Except.ok.injEq] at h
            subst h
            simp [hu, htc, ha]
          · next ha =>
            simp only [pure, Except.pure, Except.ok.injEq] at h
            subst h
            simp [hu, htc, ha]
  | null => simp [ceaProcessEvent, bind, Except.bind, asDict] at h
  | bool b => simp [ceaProcessEvent, bind, Except.bind, asDict] at h
  | num n => simp [ceaProcessEvent, bind, Except.bind, asDict] at h
  | str s => simp [ceaProcessEvent, bind, Except.bind, asDict] at h
  | arr xs => simp [ceaProcessEvent, bind, Except.bind, asDict] at h

theorem ceaFoldEvents_shape (cfg : String) (events : List Json) :
    ∀ (st st' : ConvState), ceaFoldEvents cfg st events = .ok st' →
      st'.step_id = st.step_id + events.countP ceaIsStepCreating ∧
      (st.steps.map (fun s => s.step_id) = List.range' 1 st.step_id →
        st'.steps.map (fun s => s.step_id) = List.range' 1 st'.step_id) := by
  induction events with
  | nil =>
    intro st st' h
    simp only [ceaFoldEvents] at h
    cases h
    simp
  | cons e rest ih =>
    intro st st' h
    simp only [ceaFoldEvents, bind, Except.bind] at h
    cases hp : ceaProcessEvent cfg st e with
    | error u => rw [hp] at h; simp at h
    | ok st1 =>
      rw [hp] at h
      obtain ⟨h1, h2⟩ := ceaProcessEvent_shape cfg st e st1 hp
      obtain ⟨ih1, ih2⟩ := ih st1 st' h
      constructor
      · rw [ih1, h1, List.countP_cons]
        by_cases hc : ceaIsStepCreating e <;> simp [hc] <;> omega
      · intro hmap
        apply ih2
        rw [h2, hmap, h1]
        by_cases hc : ceaIsStepCreating e
        · simp only [hc, if_true]
          rw [List.range'_concat]
          norm_num
          omega
        · simp [hc]

theorem rootProcessEvent_shape (cfg : String) (st : ConvState) (ej : Json)
    (st' : ConvState) (h : rootProcessEvent cfg st ej = .ok st') :
    st'.step_id = st.step_id + (if rootIsStepCreating ej then 1 else 0) ∧
    st'.steps.map (fun s => s.step_id) =
      st.steps.map (fun s => s.step_id) ++
        (if rootIsStepCreating ej then [st.step_id + 1] else []) := by
  cases ej with
  | obj e =>
    simp only [rootProcessEvent, bind, Except.bind, asDict] at h
    simp only [rootIsStepCreating]
    split at h
    · next hu =>
      rcases hmsg : dGetD e "message" (Json.obj []) with _ | b | n | s | xs | m <;>
        rw [hmsg] at h
      case obj =>
        simp only [pure, Except.pure, Except.ok.injEq] at h
        subst h
        simp [hu]
      all_goals simp at h
    · next hu =>
      split at h
      · next ha =>
        rcases hmsg : dGetD e "message" (Json.obj []) with _ | b | n | s | xs | m <;>
          rw [hmsg] at h
        case obj =>
          simp only at h
          cases hmet : rootMetricsOf m with
          | error u => rw [hmet] at h; simp at h
          | ok metrics =>
            rw [hmet] at h
            simp only at h
            cases hobs : rootObservationOf e (rootContentAcc (dGetD m "content" (.str ""))).1 with
            | error u => rw [hobs] at h; simp at h
            | ok observation =>
              rw [hobs] at h
              simp only [pure, Except.pure, Except.ok.injEq] at h
              subst h
              simp [hu, ha]
        all_goals simp at h
      · next ha =>
        simp only [pure, Except.pure, Except.ok.injEq] at h
        subst h
        simp [hu, ha]
  | null => simp [rootProcessEvent, bind, Except.bind, asDict] at h
  | bool b => simp [rootProcessEvent, bind, Except.bind, asDict] at h
  | num n => simp [rootProcessEvent, bind, Except.bind, asDict] at h
  | str s => simp [rootProcessEvent, bind, Except.bind, asDict] at h
  | arr xs => simp [rootProcessEvent, bind, Except.bind, asDict] at h

theorem rootFoldEvents_shape (cfg : String) (events : List Json) :
    ∀ (st st' : ConvState), rootFoldEvents cfg st events = .ok st' →
      st'.step_id = st.step_id + events.countP rootIsStepCreating ∧
      (st.steps.map (fun s => s.step_id) = List.range' 1 st.step_id →
        st'.steps.map (fun s => s.step_id) = List.range' 1 st'.step_id) := by
  induction events with
  | nil =>
    intro st st' h
    simp only [rootFoldEvents] at h
    cases h
    simp
  | cons e rest ih =>
    intro st st' h
    simp only [rootFoldEvents, bind, Except.bind] at h
    cases hp : rootProcessEvent cfg st e with
    | error u => rw [hp] at h; simp at h
    | ok st1 =>
      rw [hp] at h
      obtain ⟨h1, h2⟩ := rootProcessEvent_shape cfg st e st1 hp
      obtain ⟨ih1, ih2⟩ := ih st1 st' h
      constructor
      · rw [ih1, h1, List.countP_cons]
        by_cases hc : rootIsStepCreating e <;> simp [hc] <;> omega
      · intro hmap
        apply ih2
        rw [h2, hmap, h1]
        by_cases hc : rootIsStepCreating e
        · simp only [hc, if_true]
          rw [List.range'_concat]
          norm_num
          omega
        · simp [hc]

theorem ceaConvert_ok_some (cfg : String) (events : List Json) (t : Trajectory)
    (h : ceaConvert cfg events = .ok (some t)) :
    ∃ st : ConvState, ceaFoldEvents cfg { step_id := 0, steps := [] } events = .ok st ∧
      st.steps ≠ [] ∧ t.steps = st.steps ∧ t.final_metrics = mkFinalMetrics st.steps := by
  cases events with
  | nil => simp [ceaConvert] at h
  | cons e0 rest =>
    simp only [ceaConvert, bind, Except.bind] at h
    cases hd : asDict e0 with
    | error u => rw [hd] at h; simp at h
    | ok d0 =>
      rw [hd] at h
      simp only at h
      cases hf : ceaFoldEvents cfg { step_id := 0, steps := [] } (e0 :: rest) with
      | error u => rw [hf] at h; simp at h
      | ok st =>
        rw [hf] at h
        by_cases hs : st.steps.isEmpty
        · simp [hs, pure, Except.pure] at h
        · simp only [hs, Bool.false_eq_true, if_false, pure, Except.pure,
            Except.ok.injEq, Option.some.injEq] at h
          refine ⟨st, rfl, ?_, ?_, ?_⟩
          · intro hnil
            rw [hnil] at hs
            simp at hs
          · rw [← h]
          · rw [← h]

theorem rootConvert_ok_some (cfg ver : String) (events : List Json) (t : Trajectory)
    (h : rootConvert cfg ver events = .ok (some t)) :
    ∃ st : ConvState, rootFoldEvents cfg { step_id := 0, steps := [] } events = .ok st ∧
      st.steps ≠ [] ∧ t.steps = st.steps ∧ t.final_metrics = mkFinalMetrics st.steps := by
  cases events with
  | nil => simp [rootConvert] at h
  | cons e0 rest =>
    simp only [rootConvert, bind, Except.bind] at h
    cases hd : asDict e0 with
    | error u => rw [hd] at h; simp at h
    | ok d0 =>
      rw [hd] at h
      simp only at h
      cases hf : rootFoldEvents cfg { step_id := 0, steps := [] } (e0 :: rest) with
      | error u => rw [hf] at h; simp at h
      | ok st =>
        rw [hf] at h
        by_cases hs : st.steps.isEmpty
        · simp [hs, pure, Except.pure] at h
        · simp only [hs, Bool.false_eq_true, if_false, pure, Except.pure,
            Except.ok.injEq, Option.some.injEq] at h
          refine ⟨st, rfl, ?_, ?_, ?_⟩
          · intro hnil
            rw [hnil] at hs
            simp at hs
          · rw [← h]
          · rw [← h]

/-! ## Claim C1 -/

/-- A one-user-event log for the flat variant. -/
def c1CeaEvents : List Json := [.obj [("type", .str "user"), ("content", .str "hi")]]

/-- The trajectory the flat converter produces on `c1CeaEvents`. -/
def c1CeaTraj : Trajectory :=
  { schema_version := "ATIF-v1.4"
    session_id := .str "unknown"
    agent := { name := "code-editing-agent", version := "1.0.0", model_name := "m" }
    steps := [{ step_id := 1, timestamp := .null, source := "user", message := .str "hi" }]
    final_metrics := { total_prompt_tokens := none, total_completion_tokens := none,
                       total_cached_tokens := none, total_steps := 1 } }

/-- A one-user-event log for the content-block variant. -/
def c1RootEvents : List Json :=
  [.obj [("type", .str "user"), ("message", .obj [("content", .str "hi")])]]

/-- The trajectory the content-block converter produces on `c1RootEvents`. -/
def c1RootTraj : Trajectory :=
  { schema_version := "ATIF-v1.4"
    session_id := .str "unknown"
    agent := { name := "code-editing-agent", version := "v", model_name := "m" }
    steps := [{ step_id := 1, timestamp := .null, source := "user", message := .str "hi" }]
    final_metrics := { total_prompt_tokens := none, total_completion_tokens := none,
                       total_cached_tokens := none, total_steps := 1 } }

/-- C1: for every log whose conversion produces a trajectory, the
step_id values of the trajectory's steps are exactly `1..N` (that is,
`List.range' 1 N`) in order, where N is the number of step-creating
events (`user`/`tool_call`/`assistant` in the flat variant,
`user`/`assistant` in the content-block variant); `tool_result`
events and events of unknown type never increment the counter. -/
theorem claim_C1_step_ids :
    (∀ (cfg : String) (events : List Json) (t : Trajectory),
        ceaConvert cfg events = .ok (some t) →
        t.steps.map (fun s => s.step_id) =
          List.range' 1 (events.countP ceaIsStepCreating)) ∧
    (∀ (cfg ver : String) (events : List Json) (t : Trajectory),
        rootConvert cfg ver events = .ok (some t) →
        t.steps.map (fun s => s.step_id) =
          List.range' 1 (events.countP rootIsStepCreating)) := by
  constructor
  · intro cfg events t h
    obtain ⟨st, hf, _, hsteps, _⟩ := ceaConvert_ok_some cfg events t h
    obtain ⟨h1, h2⟩ := ceaFoldEvents_shape cfg events _ _ hf
    rw [hsteps, h2 (by simp), h1]
    simp
  · intro cfg ver events t h
    obtain ⟨st, hf, _, hsteps, _⟩ := rootConvert_ok_some cfg ver events t h
    obtain ⟨h1, h2⟩ := rootFoldEvents_shape cfg events _ _ hf
    rw [hsteps, h2 (by simp), h1]
    simp

/-- C1 witness: the theorem applied to concrete one-event logs of
each variant. -/
theorem claim_C1_step_ids_witness :
    c1CeaTraj.steps.map (fun s => s.step_id) =
      List.range' 1 (c1CeaEvents.countP ceaIsStepCreating) ∧
    c1RootTraj.steps.map (fun s => s.step_id) =
      List.range' 1 (c1RootEvents.countP rootIsStepCreating) :=
  ⟨claim_C1_step_ids.1 "m" c1CeaEvents c1CeaTraj rfl,
   claim_C1_step_ids.2 "m" "v" c1RootEvents c1RootTraj rfl⟩

/-! ## Claims C2 and C3: the tool correlator -/

theorem ceaAttachRev_no_match (t c : Json) (l : List Step)
    (h : ∀ s ∈ l, ceaMatchesStep t s = false) : ceaAttachRev t c l = l := by
  induction l with
  | nil => rfl
  | cons s rest ih =>
    simp [ceaAttachRev, h s (by simp), ih (fun s' hs' => h s' (by simp [hs']))]

theorem ceaAttachRev_first_match (t c : Json) (l1 : List Step) (s : Step)
    (l2 : List Step) (h1 : ∀ s' ∈ l1, ceaMatchesStep t s' = false)
    (h2 : ceaMatchesStep t s = true) :
    ceaAttachRev t c (l1 ++ s :: l2) = l1 ++ stepAddResult t c s :: l2 := by
  induction l1 with
  | nil => simp [ceaAttachRev, h2]
  | cons x xs ih =>
    simp [ceaAttachRev, h1 x (by simp), ih (fun s' hs' => h1 s' (by simp [hs']))]

/-- C2 (amended): for every `tool_result` event whose call id is
truthy (in particular non-empty) and matches a ToolCall in at least
one previously built Step, the correlator attaches exactly one new
`ObservationResult` (source_call_id the call id, content the combined
result text) to the most recently built agent-sourced Step whose
tool_calls contain that id — appending to that Step's existing
Observation if one exists, otherwise creating a new Observation
holding exactly that one result — leaving every earlier Step and
every later Step unchanged and never creating a new Step. -/
theorem claim_C2_correlator (e : List (String × Json)) (pre post : List Step)
    (s : Step) (htr : (dGet e "tool_call_id").truthy = true)
    (hs : ceaMatchesStep (dGet e "tool_call_id") s = true)
    (hpost : ∀ s' ∈ post, ceaMatchesStep (dGet e "tool_call_id") s' = false) :
    ceaHandleToolResult e (pre ++ s :: post) =
      pre ++ stepAddResult (dGet e "tool_call_id") (ceaResultContent e) s :: post := by
  simp only [ceaHandleToolResult]
  rw [if_pos]
  · simp only [ceaAttachToolResult]
    have hrev : (pre ++ s :: post).reverse = post.reverse ++ s :: pre.reverse := by
      simp
    rw [hrev,
      ceaAttachRev_first_match _ _ _ _ _
        (fun s' hs' => hpost s' (List.mem_reverse.mp hs')) hs]
    simp
  · simp [htr]

/-- Concrete step holding a ToolCall whose id is the empty string. -/
def c2Step : Step :=
  { step_id := 1, timestamp := .null, source := "agent",
    message := .str "Tool execution", model_name := .str "m",
    tool_calls := some [{ tool_call_id := .str "", function_name := .str "t",
                          arguments := .obj [] }],
    observation := none }

/-- Concrete `tool_result` event whose call id is the empty string. -/
def c2Event : List (String × Json) :=
  [("type", .str "tool_result"), ("tool_call_id", .str ""), ("output", .str "hi")]

/-- C2 counterexample: the event's call id (the empty string) matches
a ToolCall in a previously built Step, yet the handler leaves the
step list unchanged and attaches no ObservationResult — the guard
`if tool_call_id and steps:` drops falsy call ids.  This refutes the
claim as stated, which requires an ObservationResult to be attached. -/
theorem claim_C2_counterexample :
    ceaMatchesStep (dGet c2Event "tool_call_id") c2Step = true ∧
    ceaHandleToolResult c2Event [c2Step] = [c2Step] ∧
    (ceaHandleToolResult c2Event [c2Step]).map (fun s => s.observation) = [none] :=
  ⟨rfl, rfl, rfl⟩

/-- Concrete matching `tool_result` event for the C2 witness. -/
def c2wEvent : List (String × Json) :=
  [("type", .str "tool_result"), ("tool_call_id", .str "a"), ("output", .str "out")]

/-- Concrete step with ToolCall id `"a"` for the C2 witness. -/
def c2wStep : Step :=
  { step_id := 1, timestamp := .null, source := "agent",
    message := .str "Tool execution", model_name := .str "m",
    tool_calls := some [{ tool_call_id := .str "a", function_name := .str "t",
                          arguments := .obj [] }],
    observation := none }

/-- C2 witness: the amended claim applied at a concrete event and a
single matching step. -/
theorem claim_C2_correlator_witness :
    ceaHandleToolResult c2wEvent ([] ++ c2wStep :: []) =
      [] ++ stepAddResult (dGet c2wEvent "tool_call_id")
              (ceaResultContent c2wEvent) c2wStep :: [] :=
  claim_C2_correlator c2wEvent [] [] c2wStep rfl rfl (by simp)

/-- `pyEq` on two string literals is string equality. -/
theorem pyEq_str_str (a b : String) : pyEq (.str a) (.str b) = (a == b) := rfl

/-- C3: a `tool_result` event whose call id matches no ToolCall in
any previously built Step is silently dropped — processing it returns
the state unchanged (same steps, same counter, no observation
modified) and raises no error. -/
theorem claim_C3_unmatched_dropped (cfg : String) (st : ConvState)
    (e : List (String × Json)) (htype : dGet e "type" = .str "tool_result")
    (hnom : ∀ s ∈ st.steps, ∀ tcs, s.tool_calls = some tcs →
        ∀ tc ∈ tcs, pyEq tc.tool_call_id (dGet e "tool_call_id") = false) :
    ceaProcessEvent cfg st (.obj e) = .ok st := by
  have hm : ∀ s ∈ st.steps, ceaMatchesStep (dGet e "tool_call_id") s = false := by
    intro s hs
    simp only [ceaMatchesStep]
    cases htc : s.tool_calls with
    | none => simp
    | some tcs =>
      have hall := hnom s hs tcs htc
      have hany : tcs.any (fun tc => pyEq tc.tool_call_id (dGet e "tool_call_id")) = false :=
        List.any_eq_false.mpr (fun tc htcm => by simp [hall tc htcm])
      simp [hany]
  have hattach :
      ceaAttachToolResult (dGet e "tool_call_id") (ceaResultContent e) st.steps = st.steps := by
    simp only [ceaAttachToolResult]
    rw [ceaAttachRev_no_match _ _ _ (fun s hs => hm s (List.mem_reverse.mp hs))]
    simp
  have hhandle : ceaHandleToolResult e st.steps = st.steps := by
    simp only [ceaHandleToolResult]
    split
    · exact hattach
    · rfl
  simp only [ceaProcessEvent, bind, Except.bind, asDict, htype, pyEq_str_str, hhandle]
  simp [pure, Except.pure]

/-- Concrete `tool_result` event whose id `"zzz"` matches nothing. -/
def c3Event : List (String × Json) :=
  [("type", .str "tool_result"), ("tool_call_id", .str "zzz"), ("output", .str "o")]

/-- A user step with no tool calls. -/
def c3UserStep : Step :=
  { step_id := 1, timestamp := .null, source := "user", message := .str "hi" }

/-- An agent step whose single ToolCall has id `"a"`. -/
def c3AgentStep : Step :=
  { step_id := 2, timestamp := .null, source := "agent",
    message := .str "Tool execution", model_name := .str "m",
    tool_calls := some [{ tool_call_id := .str "a", function_name := .str "t",
                          arguments := .obj [] }],
    observation := none }

/-- C3 witness: the theorem applied to a concrete unmatched
`tool_result` event over a two-step state. -/
theorem claim_C3_unmatched_dropped_witness :
    ceaProcessEvent "m" { step_id := 2, steps := [c3UserStep, c3AgentStep] }
      (.obj c3Event) = .ok { step_id := 2, steps := [c3UserStep, c3AgentStep] } := by
  apply claim_C3_unmatched_dropped
  · rfl
  · intro s hs tcs htc tc htcm
    simp only [List.mem_cons, List.not_mem_nil, or_false] at hs
    rcases hs with rfl | rfl
    · simp [c3UserStep] at htc
    · simp only [c3AgentStep] at htc
      cases htc
      simp only [List.mem_singleton] at htcm
      subst htcm
      rfl

/-! ## Claim C7: combined output/error content of a tool_result -/

/-- C7 (amended): for every flat-variant `tool_result` event, the
content handed to the correlator is the event's output text; if a
non-empty error text is present it is appended to the output as a
labeled "STDERR:" suffix on a new line, and if the output was empty
the labeled error stands alone; an absent error leaves the output
untouched. -/
theorem claim_C7_result_content (e : List (String × Json)) (o er : String)
    (ho : dGetD e "output" (.str "") = .str o) :
    (dGet e "error" = .str er → er ≠ "" →
      ceaResultContent e = .str (if o = "" then "STDERR: " ++ er
                                 else o ++ "\nSTDERR: " ++ er)) ∧
    (dGet e "error" = .null → ceaResultContent e = .str o) := by
  constructor
  · intro he hne
    simp only [ceaResultContent, ho, he]
    have htr : (Json.str er).truthy = true := by simp [Json.truthy, hne]
    rw [if_pos htr]
    by_cases hoe : o = ""
    · subst hoe
      simp [Json.truthy, pyStr]
    · have hot : (Json.str o).truthy = true := by simp [Json.truthy, hoe]
      simp [hot, pyStr, hoe]
  · intro he
    simp [ceaResultContent, ho, he, Json.truthy]

/-- Concrete event with output and a non-empty error. -/
def c7wEvent : List (String × Json) := [("output", .str "x"), ("error", .str "boom")]

/-- Concrete event with output and no error field. -/
def c7nEvent : List (String × Json) := [("output", .str "x")]

/-- C7 witness: both conjuncts applied at concrete events. -/
theorem claim_C7_result_content_witness :
    ceaResultContent c7wEvent =
      .str (if "x" = "" then "STDERR: " ++ "boom" else "x" ++ "\nSTDERR: " ++ "boom") ∧
    ceaResultContent c7nEvent = .str "x" :=
  ⟨(claim_C7_result_content c7wEvent "x" "boom" rfl).1 rfl (by decide),
   (claim_C7_result_content c7nEvent "x" "boom" rfl).2 rfl⟩

/-- Concrete event whose error field is present but empty. -/
def c7cEvent : List (String × Json) := [("output", .str "x"), ("error", .str "")]

/-- C7 counterexample: the event carries an error text (the empty
string), yet the content handed on is the bare output with no
"STDERR:" suffix — `if error:` treats the falsy empty string as
absent.  This refutes the claim as stated, which appends the labeled
suffix whenever an error text is present. -/
theorem claim_C7_counterexample :
    List.lookup "error" c7cEvent = some (.str "") ∧
    ceaResultContent c7cEvent = .str "x" ∧
    Json.str "x" ≠ .str ("x" ++ "\nSTDERR: ") :=
  ⟨rfl, rfl, by simp⟩

/-! ## Claim C8: the flat-variant tool_call step -/

/-- C8: every flat-variant `tool_call` event opens exactly one new
Step with source agent, the fixed placeholder message
"Tool execution", exactly one ToolCall built from the event's call
id, tool name and tool input, the event's model ored with the run's
configured model as model_name, reasoning_content passed through,
and no Observation; and when the event omits the model field, that
model_name is exactly the run's configured model. -/
theorem claim_C8_tool_call_step (cfg : String) (st : ConvState)
    (e : List (String × Json))
    (htype : dGet e "type" = .str "tool_call") :
    ceaProcessEvent cfg st (.obj e) = .ok
      { step_id := st.step_id + 1,
        steps := st.steps ++ [{
          step_id := st.step_id + 1,
          timestamp := dGet e "timestamp",
          source := "agent",
          message := .str "Tool execution",
          model_name := pyOrJson (dGet e "model") (.str cfg),
          reasoning_content := dGet e "reasoning_content",
          tool_calls := some [{ tool_call_id := dGetD e "tool_call_id" (.str ""),
                                function_name := dGetD e "tool_name" (.str ""),
                                arguments := dGetD e "tool_input" (.obj []) }],
          observation := none }] } ∧
    (List.lookup "model" e = none → pyOrJson (dGet e "model") (.str cfg) = .str cfg) := by
  constructor
  · simp only [ceaProcessEvent, bind, Except.bind, asDict, htype, pyEq_str_str]
    simp [pure, Except.pure]
  · intro hmodel
    simp [dGet, dGetD, hmodel, pyOrJson, Json.truthy]

/-- Concrete `tool_call` event with no model field. -/
def c8Event : List (String × Json) :=
  [("type", .str "tool_call"), ("tool_call_id", .str "abc"),
   ("tool_name", .str "read_file"), ("tool_input", .obj [("path", .str "f")])]

/-- Concrete `tool_call` event carrying its own model field. -/
def c8ModelEvent : List (String × Json) :=
  [("type", .str "tool_call"), ("tool_call_id", .str "abc"),
   ("tool_name", .str "read_file"), ("tool_input", .obj [("path", .str "f")]),
   ("model", .str "claude")]

/-- C8 witness: the theorem applied at a concrete model-omitting
`tool_call` event (the model_name defaults to the run's model) and at
a concrete model-carrying one (the event's model wins). -/
theorem claim_C8_tool_call_step_witness :
    ceaProcessEvent "gpt" { step_id := 0, steps := [] } (.obj c8Event) = .ok
      { step_id := 1,
        steps := [{
          step_id := 1,
          timestamp := .null,
          source := "agent",
          message := .str "Tool execution",
          model_name := .str "gpt",
          reasoning_content := .null,
          tool_calls := some [{ tool_call_id := .str "abc",
                                function_name := .str "read_file",
                                arguments := .obj [("path", .str "f")] }],
          observation := none }] } ∧
    pyOrJson (dGet c8Event "model") (.str "gpt") = .str "gpt" ∧
    ceaProcessEvent "gpt" { step_id := 0, steps := [] } (.obj c8ModelEvent) = .ok
      { step_id := 1,
        steps := [{
          step_id := 1,
          timestamp := .null,
          source := "agent",
          message := .str "Tool execution",
          model_name := .str "claude",
          reasoning_content := .null,
          tool_calls := some [{ tool_call_id := .str "abc",
                                function_name := .str "read_file",
                                arguments := .obj [("path", .str "f")] }],
          observation := none }] } :=
  ⟨(claim_C8_tool_call_step "gpt" { step_id := 0, steps := [] } c8Event rfl).1,
   (claim_C8_tool_call_step "gpt" { step_id := 0, steps := [] } c8Event rfl).2 rfl,
   (claim_C8_tool_call_step "gpt" { step_id := 0, steps := [] } c8ModelEvent rfl).1⟩

/-! ## Claim C5: run-level metrics totals -/

/-- The claim-side sum: per-step values with absent values
contributing zero. -/
def claimFieldSum (f : Metrics → Option Int) (steps : List Step) : Int :=
  (steps.map (fun s => (s.metrics.bind f).getD 0)).sum

theorem metricsTotal_eq_claimSum (f : Metrics → Option Int) (steps : List Step) :
    metricsTotal f steps = claimFieldSum f steps := by
  induction steps with
  | nil => rfl
  | cons s rest ih =>
    simp only [metricsTotal, claimFieldSum, List.filterMap_cons, List.map_cons,
      List.sum_cons] at *
    cases hm : s.metrics with
    | none => simp [stepFieldContrib, hm, ih]
    | some m =>
      cases hf : f m with
      | none => simp [stepFieldContrib, hm, hf, ih]
      | some v =>
        by_cases hv : v = 0
        · subst hv
          simp [stepFieldContrib, hm, hf, ih]
        · simp [stepFieldContrib, hm, hf, hv, ih]

/-- C5: each run-level token total equals the exact sum of the
corresponding per-step Metrics values, absent values contributing
zero; a field whose sum over all steps is zero is reported as absent
(`none`) rather than zero; `total_steps` always equals the exact
number of Steps; and both converters install exactly this aggregation
on every trajectory they produce. -/
theorem claim_C5_metrics_totals :
    (∀ steps : List Step,
      (mkFinalMetrics steps).total_prompt_tokens =
        (if claimFieldSum (fun m => m.prompt_tokens) steps = 0 then none
         else some (claimFieldSum (fun m => m.prompt_tokens) steps)) ∧
      (mkFinalMetrics steps).total_completion_tokens =
        (if claimFieldSum (fun m => m.completion_tokens) steps = 0 then none
         else some (claimFieldSum (fun m => m.completion_tokens) steps)) ∧
      (mkFinalMetrics steps).total_cached_tokens =
        (if claimFieldSum (fun m => m.cached_tokens) steps = 0 then none
         else some (claimFieldSum (fun m => m.cached_tokens) steps)) ∧
      (mkFinalMetrics steps).total_steps = steps.length) ∧
    (∀ (cfg : String) (events : List Json) (t : Trajectory),
        ceaConvert cfg events = .ok (some t) →
        t.final_metrics = mkFinalMetrics t.steps) ∧
    (∀ (cfg ver : String) (events : List Json) (t : Trajectory),
        rootConvert cfg ver events = .ok (some t) →
        t.final_metrics = mkFinalMetrics t.steps) := by
  refine ⟨fun steps => ?_, fun cfg events t h => ?_, fun cfg ver events t h => ?_⟩
  · simp [mkFinalMetrics, pyOrNone, metricsTotal_eq_claimSum]
  · obtain ⟨st, _, _, hsteps, hfm⟩ := ceaConvert_ok_some cfg events t h
    rw [hfm, hsteps]
  · obtain ⟨st, _, _, hsteps, hfm⟩ := rootConvert_ok_some cfg ver events t h
    rw [hfm, hsteps]

/-- A content-block log with one assistant event carrying usage. -/
def c5RootEvents : List Json :=
  [.obj [("type", .str "assistant"),
         ("message", .obj [("content", .str "done"), ("model", .str "mm"),
                           ("usage", .obj [("input_tokens", .num 7),
                                           ("output_tokens", .num 3)])])]]

/-- The trajectory the content-block converter produces on
`c5RootEvents`. -/
def c5RootTraj : Trajectory :=
  { schema_version := "ATIF-v1.4"
    session_id := .str "unknown"
    agent := { name := "code-editing-agent", version := "v", model_name := "m" }
    steps := [{ step_id := 1, timestamp := .null, source := "agent",
                message := .str "done", model_name := .str "mm",
                metrics := some { prompt_tokens := some 7, completion_tokens := some 3,
                                  cached_tokens := none } }]
    final_metrics := { total_prompt_tokens := some 7, total_completion_tokens := some 3,
                       total_cached_tokens := none, total_steps := 1 } }

/-- A flat log with one user event. -/
def c5CeaEvents : List Json := [.obj [("type", .str "user"), ("content", .str "yo")]]

/-- The trajectory the flat converter produces on `c5CeaEvents`. -/
def c5CeaTraj : Trajectory :=
  { schema_version := "ATIF-v1.4"
    session_id := .str "unknown"
    agent := { name := "code-editing-agent", version := "1.0.0", model_name := "m" }
    steps := [{ step_id := 1, timestamp := .null, source := "user", message := .str "yo" }]
    final_metrics := { total_prompt_tokens := none, total_completion_tokens := none,
                       total_cached_tokens := none, total_steps := 1 } }

/-- C5 witness: the converter conjuncts applied at concrete logs of
each variant. -/
theorem claim_C5_metrics_totals_witness :
    c5CeaTraj.final_metrics = mkFinalMetrics c5CeaTraj.steps ∧
    c5RootTraj.final_metrics = mkFinalMetrics c5RootTraj.steps :=
  ⟨claim_C5_metrics_totals.2.1 "m" c5CeaEvents c5CeaTraj rfl,
   claim_C5_metrics_totals.2.2 "m" "v" c5RootEvents c5RootTraj rfl⟩

/-! ## Claim C10: the flat variant never attaches Metrics -/

theorem ceaAttachRev_map_metrics (t c : Json) (l : List Step) :
    (ceaAttachRev t c l).map (fun s => s.metrics) = l.map (fun s => s.metrics) := by
  induction l with
  | nil => rfl
  | cons s rest ih =>
    by_cases h : ceaMatchesStep t s
    · simp [ceaAttachRev, h, stepAddResult_metrics]
    · simp [ceaAttachRev, h, ih]

theorem ceaHandleToolResult_map_metrics (e : List (String × Json)) (steps : List Step) :
    (ceaHandleToolResult e steps).map (fun s => s.metrics) =
      steps.map (fun s => s.metrics) := by
  simp only [ceaHandleToolResult]
  split
  · simp [ceaAttachToolResult, List.map_reverse, ceaAttachRev_map_metrics]
  · rfl

theorem ceaProcessEvent_metrics (cfg : String) (st : ConvState) (ej : Json)
    (st' : ConvState) (h : ceaProcessEvent cfg st ej = .ok st') :
    st'.steps.map (fun s => s.metrics) =
      st.steps.map (fun s => s.metrics) ++
        (if ceaIsStepCreating ej then [none] else []) := by
  cases ej with
  | obj e =>
    simp only [ceaProcessEvent, bind, Except.bind, asDict] at h
    simp only [ceaIsStepCreating]
    split at h
    · next hu =>
      simp only [pure, Except.pure, Except.ok.injEq] at h
      subst h
      simp [hu]
    · next hu =>
      split at h
      · next htc =>
        simp only [pure, Except.pure, Except.ok.injEq] at h
        subst h
        simp [hu, htc]
      · next htc =>
        split at h
        · next htr =>
          have ht := (pyEq_str_iff _ _).mp htr
          have hassist : pyEq (dGet e "type") (.str "assistant") = false := by
            rw [ht]; simp [pyEq]
          simp only [pure, Except.pure, Except.ok.injEq] at h
          subst h
          simp [hu, htc, hassist, ceaHandleToolResult_map_metrics]
        · next htr =>
          split at h
          · next ha =>
            simp only [pure, Except.pure, Except.ok.injEq] at h
            subst h
            simp [hu, htc, ha]
          · next ha =>
            simp only [pure, Except.pure, Except.ok.injEq] at h
            subst h
            simp [hu, htc, ha]
  | null => simp [ceaProcessEvent, bind, Except.bind, asDict] at h
  | bool b => simp [ceaProcessEvent, bind, Except.bind, asDict] at h
  | num n => simp [ceaProcessEvent, bind, Except.bind, asDict] at h
  | str s => simp [ceaProcessEvent, bind, Except.bind, asDict] at h
  | arr xs => simp [ceaProcessEvent, bind, Except.bind, asDict] at h

theorem ceaFoldEvents_metrics (cfg : String) (events : List Json) :
    ∀ (st st' : ConvState), ceaFoldEvents cfg st events = .ok st' →
      (∀ s ∈ st.steps, s.metrics = none) → ∀ s ∈ st'.steps, s.metrics = none := by
  induction events with
  | nil =>
    intro st st' h hall
    simp only [ceaFoldEvents] at h
    cases h
    exact hall
  | cons e rest ih =>
    intro st st' h hall
    simp only [ceaFoldEvents, bind, Except.bind] at h
    cases hp : ceaProcessEvent cfg st e with
    | error u => rw [hp] at h; simp at h
    | ok st1 =>
      rw [hp] at h
      refine ih st1 st' h (fun s hs => ?_)
      have hmem : s.metrics ∈ st1.steps.map (fun s => s.metrics) :=
        List.mem_map_of_mem _ hs
      rw [ceaProcessEvent_metrics cfg st e st1 hp] at hmem
      rcases List.mem_append.mp hmem with hmem | hmem
      · obtain ⟨s0, hs0, he⟩ := List.mem_map.mp hmem
        rw [← he, hall s0 hs0]
      · split at hmem <;> simp_all

theorem metricsTotal_of_no_metrics (f : Metrics → Option Int) (steps : List Step)
    (h : ∀ s ∈ steps, s.metrics = none) : metricsTotal f steps = 0 := by
  induction steps with
  | nil => rfl
  | cons s rest ih =>
    simp only [metricsTotal, List.filterMap_cons, stepFieldContrib, h s (by simp)]
    exact ih (fun s' hs' => h s' (by simp [hs']))

/-- C10: the flat-variant converter never attaches a Metrics record
to any Step, so every trajectory it produces reports all three
run-level token totals as absent (`none`) regardless of the log's
contents, while `total_steps` carries the exact step count. -/
theorem claim_C10_flat_no_metrics (cfg : String) (events : List Json)
    (t : Trajectory) (h : ceaConvert cfg events = .ok (some t)) :
    (∀ s ∈ t.steps, s.metrics = none) ∧
    t.final_metrics.total_prompt_tokens = none ∧
    t.final_metrics.total_completion_tokens = none ∧
    t.final_metrics.total_cached_tokens = none ∧
    t.final_metrics.total_steps = t.steps.length := by
  obtain ⟨st, hf, _, hsteps, hfm⟩ := ceaConvert_ok_some cfg events t h
  have hnone : ∀ s ∈ st.steps, s.metrics = none :=
    ceaFoldEvents_metrics cfg events _ _ hf (by simp)
  rw [hsteps, hfm]
  refine ⟨hnone, ?_, ?_, ?_, rfl⟩ <;>
    simp [mkFinalMetrics, metricsTotal_of_no_metrics _ _ hnone, pyOrNone]

/-- A flat log exercising every step-creating branch. -/
def c10Events : List Json :=
  [.obj [("type", .str "user"), ("content", .str "go")],
   .obj [("type", .str "tool_call"), ("tool_call_id", .str "a"),
         ("tool_name", .str "t"), ("tool_input", .obj [])],
   .obj [("type", .str "tool_result"), ("tool_call_id", .str "a"),
         ("output", .str "ok")],
   .obj [("type", .str "assistant"), ("content", .str "done")]]

/-- The trajectory the flat converter produces on `c10Events`. -/
def c10Traj : Trajectory :=
  { schema_version := "ATIF-v1.4"
    session_id := .str "unknown"
    agent := { name := "code-editing-agent", version := "1.0.0", model_name := "m" }
    steps :=
      [{ step_id := 1, timestamp := .null, source := "user", message := .str "go" },
       { step_id := 2, timestamp := .null, source := "agent",
         message := .str "Tool execution", model_name := .str "m",
         tool_calls := some [{ tool_call_id := .str "a", function_name := .str "t",
                               arguments := .obj [] }],
         observation := some { results := [{ source_call_id := .str "a",
                                             content := .str "ok" }] } },
       { step_id := 3, timestamp := .null, source := "agent", message := .str "done",
         model_name := .str "m" }]
    final_metrics := { total_prompt_tokens := none, total_completion_tokens := none,
                       total_cached_tokens := none, total_steps := 3 } }

/-- C10 witness: the theorem applied at a concrete four-event flat
log. -/
theorem claim_C10_flat_no_metrics_witness :
    (∀ s ∈ c10Traj.steps, s.metrics = none) ∧
    c10Traj.final_metrics.total_prompt_tokens = none ∧
    c10Traj.final_metrics.total_completion_tokens = none ∧
    c10Traj.final_metrics.total_cached_tokens = none ∧
    c10Traj.final_metrics.total_steps = c10Traj.steps.length :=
  claim_C10_flat_no_metrics "m" c10Events c10Traj rfl

/-! ## Claim C6: no-data outcomes and malformed-line skipping -/

/-- C6: if the log yields zero valid JSON events the conversion
returns `none` (no trajectory) rather than an error; if zero Steps
remain after classifying all events it likewise returns `none`; and
blank or malformed lines are skipped without affecting the remaining
lines. -/
theorem claim_C6_no_data :
    (∀ (cfg : String) (ls : List LogLine), decodeLines ls = [] →
        ceaConvertLog cfg ls = .ok none) ∧
    (∀ (cfg : String) (e0 : List (String × Json)) (rest : List Json) (st : ConvState),
        ceaFoldEvents cfg { step_id := 0, steps := [] } (Json.obj e0 :: rest) = .ok st →
        st.steps = [] →
        ceaConvert cfg (Json.obj e0 :: rest) = .ok none) ∧
    (∀ (s : String) (ls : List LogLine),
        decodeLines (LogLine.malformed s :: ls) = decodeLines ls) ∧
    (∀ ls : List LogLine, decodeLines (LogLine.blank :: ls) = decodeLines ls) := by
  refine ⟨fun cfg ls h => ?_, fun cfg e0 rest st hf hs => ?_,
          fun s ls => ?_, fun ls => ?_⟩
  · simp [ceaConvertLog, h, ceaConvert]
  · simp only [ceaConvert, bind, Except.bind, asDict, hf, hs]
    simp [pure, Except.pure]
  · simp [decodeLines]
  · simp [decodeLines]

/-- C6 witness: all four conjuncts applied at concrete inputs — a log
of one malformed line, a log whose single event has an unknown type
(zero steps), and skipping lemmas at concrete lines. -/
theorem claim_C6_no_data_witness :
    ceaConvertLog "m" [LogLine.malformed "oops"] = .ok none ∧
    ceaConvert "m" [Json.obj [("type", .str "mystery")]] = .ok none ∧
    decodeLines [LogLine.malformed "x", LogLine.valid (.num 1)] =
      decodeLines [LogLine.valid (.num 1)] ∧
    decodeLines [LogLine.blank, LogLine.valid (.num 1)] =
      decodeLines [LogLine.valid (.num 1)] :=
  ⟨claim_C6_no_data.1 "m" [LogLine.malformed "oops"] rfl,
   claim_C6_no_data.2.1 "m" [("type", .str "mystery")] []
     { step_id := 0, steps := [] } rfl rfl,
   claim_C6_no_data.2.2.1 "x" [LogLine.valid (.num 1)],
   claim_C6_no_data.2.2.2 [LogLine.valid (.num 1)]⟩

/-! ## Claim C9: the context sink is written only on success -/

/-- C9: whenever the post-run conversion fails (missing log file, a
conversion error, or a "no data" outcome), the caller-supplied
context sink is returned untouched; conversely, if the sink changed
at all then the conversion produced a trajectory.  Both variants. -/
theorem claim_C9_context_sink :
    (∀ (cfg : String) (ctx : AgentContext),
        ceaPopulateContextPostRun cfg .missing ctx = ctx) ∧
    (∀ (cfg : String) (ls : List LogLine) (ctx : AgentContext),
        ceaConvertLog cfg ls = .error () →
        ceaPopulateContextPostRun cfg (.found ls) ctx = ctx) ∧
    (∀ (cfg : String) (ls : List LogLine) (ctx : AgentContext),
        ceaConvertLog cfg ls = .ok none →
        ceaPopulateContextPostRun cfg (.found ls) ctx = ctx) ∧
    (∀ (cfg : String) (log : LogLookup) (ctx : AgentContext),
        ceaPopulateContextPostRun cfg log ctx ≠ ctx →
        ∃ (ls : List LogLine) (t : Trajectory),
          log = .found ls ∧ ceaConvertLog cfg ls = .ok (some t)) ∧
    (∀ (cfg ver : String) (ctx : AgentContext),
        rootPopulateContextPostRun cfg ver .missing ctx = ctx) ∧
    (∀ (cfg ver : String) (ls : List LogLine) (ctx : AgentContext),
        rootConvertLog cfg ver ls = .error () →
        rootPopulateContextPostRun cfg ver (.found ls) ctx = ctx) ∧
    (∀ (cfg ver : String) (ls : List LogLine) (ctx : AgentContext),
        rootConvertLog cfg ver ls = .ok none →
        rootPopulateContextPostRun cfg ver (.found ls) ctx = ctx) ∧
    (∀ (cfg ver : String) (log : LogLookup) (ctx : AgentContext),
        rootPopulateContextPostRun cfg ver log ctx ≠ ctx →
        ∃ (ls : List LogLine) (t : Trajectory),
          log = .found ls ∧ rootConvertLog cfg ver ls = .ok (some t)) := by
  refine ⟨fun cfg ctx => rfl,
          fun cfg ls ctx h => ?_,
          fun cfg ls ctx h => ?_,
          fun cfg log ctx h => ?_,
          fun cfg ver ctx => rfl,
          fun cfg ver ls ctx h => ?_,
          fun cfg ver ls ctx h => ?_,
          fun cfg ver log ctx h => ?_⟩
  · simp [ceaPopulateContextPostRun, h]
  · simp [ceaPopulateContextPostRun, h]
  · cases log with
    | missing => exact absurd rfl h
    | found ls =>
      cases hc : ceaConvertLog cfg ls with
      | error u =>
        refine absurd ?_ h
        simp [ceaPopulateContextPostRun, hc]
      | ok o =>
        cases o with
        | none =>
          refine absurd ?_ h
          simp [ceaPopulateContextPostRun, hc]
        | some t => exact ⟨ls, t, rfl, hc⟩
  · simp [rootPopulateContextPostRun, h]
  · simp [rootPopulateContextPostRun, h]
  · cases log with
    | missing => exact absurd rfl h
    | found ls =>
      cases hc : rootConvertLog cfg ver ls with
      | error u =>
        refine absurd ?_ h
        simp [rootPopulateContextPostRun, hc]
      | ok o =>
        cases o with
        | none =>
          refine absurd ?_ h
          simp [rootPopulateContextPostRun, hc]
        | some t => exact ⟨ls, t, rfl, hc⟩

/-- A log line holding a non-object event (the conversion raises at
`events[0].get`). -/
def c9ErrLines : List LogLine := [LogLine.valid (.num 3)]

/-- A log producing a trajectory in the flat variant. -/
def c9OkLines : List LogLine :=
  [LogLine.valid (.obj [("type", .str "user"), ("content", .str "hey")])]

/-- A log producing a trajectory in the content-block variant. -/
def c9OkRootLines : List LogLine :=
  [LogLine.valid (.obj [("type", .str "user"),
                        ("message", .obj [("content", .str "hey")])])]

/-- C9 witness: each failure conjunct applied at a concrete input,
and the success conjunct applied at a context the conversion
overwrites. -/
theorem claim_C9_context_sink_witness :
    ceaPopulateContextPostRun "m" .missing ⟨5, 6, 7⟩ = ⟨5, 6, 7⟩ ∧
    ceaPopulateContextPostRun "m" (.found c9ErrLines) ⟨5, 6, 7⟩ = ⟨5, 6, 7⟩ ∧
    ceaPopulateContextPostRun "m" (.found []) ⟨5, 6, 7⟩ = ⟨5, 6, 7⟩ ∧
    (∃ (ls : List LogLine) (t : Trajectory),
      LogLookup.found c9OkLines = .found ls ∧ ceaConvertLog "m" ls = .ok (some t)) ∧
    rootPopulateContextPostRun "m" "v" .missing ⟨5, 6, 7⟩ = ⟨5, 6, 7⟩ ∧
    rootPopulateContextPostRun "m" "v" (.found c9ErrLines) ⟨5, 6, 7⟩ = ⟨5, 6, 7⟩ ∧
    rootPopulateContextPostRun "m" "v" (.found []) ⟨5, 6, 7⟩ = ⟨5, 6, 7⟩ ∧
    (∃ (ls : List LogLine) (t : Trajectory),
      LogLookup.found c9OkRootLines = .found ls ∧
        rootConvertLog "m" "v" ls = .ok (some t)) :=
  ⟨claim_C9_context_sink.1 "m" ⟨5, 6, 7⟩,
   claim_C9_context_sink.2.1 "m" c9ErrLines ⟨5, 6, 7⟩ rfl,
   claim_C9_context_sink.2.2.1 "m" [] ⟨5, 6, 7⟩ rfl,
   claim_C9_context_sink.2.2.2.1 "m" (.found c9OkLines) ⟨5, 6, 7⟩ (by decide),
   claim_C9_context_sink.2.2.2.2.1 "m" "v" ⟨5, 6, 7⟩,
   claim_C9_context_sink.2.2.2.2.2.1 "m" "v" c9ErrLines ⟨5, 6, 7⟩ rfl,
   claim_C9_context_sink.2.2.2.2.2.2.1 "m" "v" [] ⟨5, 6, 7⟩ rfl,
   claim_C9_context_sink.2.2.2.2.2.2.2 "m" "v" (.found c9OkRootLines) ⟨5, 6, 7⟩
     (by decide)⟩

/-! ## Claim C4: content-block assistant events -/

/-- The ToolCalls the claim predicts: one per `tool_use` block, in
block order. -/
def toolUseCalls (blocks : List Json) : List ToolCall :=
  (blocks.filter isToolUseBlock).map mkBlockToolCall

/-- The message text the claim predicts: the stringified forms of all
non-`tool_use` blocks, concatenated in order. -/
def nonToolUseText : List Json → String
  | [] => ""
  | b :: bs =>
    if isToolUseBlock b then nonToolUseText bs
    else pyStr b ++ nonToolUseText bs

theorem rootBlocksAcc_go (blocks : List Json) :
    ∀ acc : List ToolCall × String,
      blocks.foldl
        (fun acc block =>
          if isToolUseBlock block then (acc.1 ++ [mkBlockToolCall block], acc.2)
          else (acc.1, acc.2 ++ pyStr block)) acc =
      (acc.1 ++ toolUseCalls blocks, acc.2 ++ nonToolUseText blocks) := by
  induction blocks with
  | nil => intro acc; simp [toolUseCalls, nonToolUseText]
  | cons b bs ih =>
    intro acc
    simp only [List.foldl_cons]
    by_cases hb : isToolUseBlock b
    · rw [ih]
      simp [toolUseCalls, nonToolUseText, hb, List.filter_cons]
    · rw [ih]
      simp [toolUseCalls, nonToolUseText, hb, List.filter_cons, String.append_assoc]

theorem rootBlocksAcc_eq (blocks : List Json) :
    rootBlocksAcc blocks = (toolUseCalls blocks, nonToolUseText blocks) := by
  have h := rootBlocksAcc_go blocks ([], "")
  simpa [rootBlocksAcc] using h

/-- C4 (amended): every content-block assistant event opens exactly
one new agent Step; each content block tagged `tool_use` becomes a
ToolCall (id, function name, arguments = the block's input) on that
Step, in order; the Step's message is the concatenation of the
stringified non-`tool_use` blocks when that concatenation is
non-empty, and the placeholder "Tool execution" otherwise; and if the
event carries a truthy (non-empty object) `toolUseResult` value and
at least one ToolCall was extracted, an Observation holding exactly
one result — source_call_id the first extracted ToolCall's id,
content the result's stdout field — is attached to that same Step. -/
theorem claim_C4_assistant_blocks (cfg : String) (st : ConvState)
    (e m : List (String × Json)) (blocks : List Json) (st' : ConvState)
    (htype : dGet e "type" = .str "assistant")
    (hmsg : dGetD e "message" (.obj []) = .obj m)
    (hcontent : dGetD m "content" (.str "") = .arr blocks)
    (h : rootProcessEvent cfg st (.obj e) = .ok st') :
    ∃ s : Step, st'.steps = st.steps ++ [s] ∧
      s.source = "agent" ∧
      s.tool_calls = (if (toolUseCalls blocks).isEmpty then none
                      else some (toolUseCalls blocks)) ∧
      s.message = .str (if nonToolUseText blocks = "" then "Tool execution"
                        else nonToolUseText blocks) ∧
      (∀ tkvs : List (String × Json),
        dGet e "toolUseResult" = .obj tkvs → tkvs ≠ [] →
        ∀ (tc0 : ToolCall) (rest : List ToolCall),
          toolUseCalls blocks = tc0 :: rest →
          s.observation = some { results := [{
            source_call_id := tc0.tool_call_id,
            content := dGetD tkvs "stdout" (.str "") }] }) := by
  have huser : pyEq (dGet e "type") (.str "user") = false := by
    rw [htype, pyEq_str_str]; simp
  have hassist : pyEq (dGet e "type") (.str "assistant") = true := by
    rw [htype, pyEq_str_str]; simp
  have hacc : rootContentAcc (dGetD m "content" (.str "")) =
      (toolUseCalls blocks, nonToolUseText blocks) := by
    rw [hcontent]
    simp [rootContentAcc, rootBlocksAcc_eq]
  simp only [rootProcessEvent, bind, Except.bind, asDict, huser, hassist,
    Bool.false_eq_true, if_false, if_true] at h
  rw [hmsg] at h
  simp only at h
  rw [hacc] at h
  cases hmet : rootMetricsOf m with
  | error u => rw [hmet] at h; simp at h
  | ok metrics =>
    rw [hmet] at h
    simp only at h
    cases hobs : rootObservationOf e (toolUseCalls blocks, nonToolUseText blocks).1 with
    | error u => rw [hobs] at h; simp at h
    | ok observation =>
      rw [hobs] at h
      simp only [pure, Except.pure, Except.ok.injEq] at h
      subst h
      refine ⟨_, rfl, rfl, rfl, ?_, ?_⟩
      · simp [pyOrStr]
      · intro tkvs htur hne tc0 rest hcalls
        simp only at hobs
        rw [hcalls] at hobs
        simp only [rootObservationOf, htur] at hobs
        have htr : (Json.obj tkvs).truthy = true := by
          simp [Json.truthy, hne]
        rw [if_pos htr] at hobs
        simp only [htur, bind, Except.bind, asDict, pure, Except.pure,
          Except.ok.injEq] at hobs
        exact hobs.symm

/-- Assistant event whose only block is a `tool_use` and whose
`toolUseResult` is present but an empty (falsy) object. -/
def c4CexEvent : List (String × Json) :=
  [("type", .str "assistant"),
   ("message", .obj [("content",
      .arr [.obj [("type", .str "tool_use"), ("id", .str "t1"),
                  ("name", .str "bash"), ("input", .obj [])]])]),
   ("toolUseResult", .obj [])]

/-- The step the converter actually builds on `c4CexEvent`. -/
def c4CexStep : Step :=
  { step_id := 1, timestamp := .null, source := "agent",
    message := .str "Tool execution", model_name := .str "m",
    tool_calls := some [{ tool_call_id := .str "t1", function_name := .str "bash",
                          arguments := .obj [] }],
    observation := none, metrics := none }

/-- C4 counterexample: the event carries a `toolUseResult` field and
one ToolCall is extracted, yet no Observation is attached (the falsy
empty object fails `if tool_result and tool_calls:`), and the message
is the placeholder "Tool execution" rather than the empty
concatenation of zero non-`tool_use` blocks.  This refutes the claim
as stated. -/
theorem claim_C4_counterexample :
    List.lookup "toolUseResult" c4CexEvent = some (.obj []) ∧
    rootProcessEvent "m" { step_id := 0, steps := [] } (.obj c4CexEvent) =
      .ok { step_id := 1, steps := [c4CexStep] } ∧
    c4CexStep.tool_calls = some [{ tool_call_id := .str "t1",
                                   function_name := .str "bash",
                                   arguments := .obj [] }] ∧
    c4CexStep.observation = none ∧
    c4CexStep.message = .str "Tool execution" ∧
    Json.str "Tool execution" ≠ .str "" :=
  ⟨rfl, rfl, rfl, rfl, rfl, by simp⟩

/-- Assistant event with a text block, a `tool_use` block, and a
truthy `toolUseResult`. -/
def c4wEvent : List (String × Json) :=
  [("type", .str "assistant"),
   ("message", .obj [("content",
      .arr [.str "thinking ",
            .obj [("type", .str "tool_use"), ("id", .str "t9"),
                  ("name", .str "run"), ("input", .obj [("c", .str "ls")])]])]),
   ("toolUseResult", .obj [("stdout", .str "OUT")])]

/-- The message object of `c4wEvent`. -/
def c4wMsg : List (String × Json) :=
  [("content", .arr [.str "thinking ",
     .obj [("type", .str "tool_use"), ("id", .str "t9"),
           ("name", .str "run"), ("input", .obj [("c", .str "ls")])]])]

/-- The content blocks of `c4wEvent`. -/
def c4wBlocks : List Json :=
  [.str "thinking ",
   .obj [("type", .str "tool_use"), ("id", .str "t9"),
         ("name", .str "run"), ("input", .obj [("c", .str "ls")])]]

/-- The state the converter reaches after `c4wEvent`. -/
def c4wState : ConvState :=
  { step_id := 1,
    steps := [{ step_id := 1, timestamp := .null, source := "agent",
                message := .str "thinking ", model_name := .str "m",
                tool_calls := some [{ tool_call_id := .str "t9",
                                      function_name := .str "run",
                                      arguments := .obj [("c", .str "ls")] }],
                observation := some { results := [{ source_call_id := .str "t9",
                                                    content := .str "OUT" }] },
                metrics := none }] }

/-- C4 witness: the amended claim applied at a concrete two-block
assistant event with a truthy `toolUseResult`. -/
theorem claim_C4_assistant_blocks_witness :
    ∃ s : Step,
      c4wState.steps = ({ step_id := 0, steps := [] } : ConvState).steps ++ [s] ∧
      s.source = "agent" ∧
      s.tool_calls = (if (toolUseCalls c4wBlocks).isEmpty then none
                      else some (toolUseCalls c4wBlocks)) ∧
      s.message = .str (if nonToolUseText c4wBlocks = "" then "Tool execution"
                        else nonToolUseText c4wBlocks) ∧
      (∀ tkvs : List (String × Json),
        dGet c4wEvent "toolUseResult" = .obj tkvs → tkvs ≠ [] →
        ∀ (tc0 : ToolCall) (rest : List ToolCall),
          toolUseCalls c4wBlocks = tc0 :: rest →
          s.observation = some { results := [{
            source_call_id := tc0.tool_call_id,
            content := dGetD tkvs "stdout" (.str "") }] }) :=
  claim_C4_assistant_blocks "m" { step_id := 0, steps := [] } c4wEvent c4wMsg
    c4wBlocks c4wState rfl rfl rfl rfl
